import Mathlib

/-!
Shallow embedding of the ranked-song management logic of `song_ranking.py`
(a Streamlit app curating a ranked list of up to 2000 songs from the
Spotify API), together with proofs about the embedded operations.

Modelling conventions:
* Python dicts holding song data are modelled by the structure `Song`;
  a dict key that may be absent is an `Option` field (`none` = key absent,
  matching Python dict equality, which distinguishes key sets).
* Exceptions are modelled with `Except PyErr`; a `try/except` block that
  catches everything is a `match` on the `Except` value. Calls into the
  Spotify client are modelled by passing their result (value or raised
  error) as an `Except` argument.
* Timestamps are integer milliseconds (the code parses the ISO string of
  `played_at` into epoch milliseconds before comparing).
* The persisted JSON file is modelled as the list of entry records it
  contains; serialization is structural, so two files are equivalent
  modulo field order exactly when the lists of records are equal.
-/

namespace Top2000

/-- Exceptions that the modelled Python code can raise or receive from the
Spotify client: a missing dict key, an out-of-range list index, and an
arbitrary provider (network or auth) failure tagged by a message. -/
inductive PyErr where
  | keyErr : PyErr
  | idxErr : PyErr
  | netErr : String → PyErr
deriving DecidableEq, Repr

/-- A song dict as built by `search_spotify`, `get_spotify_suggestions` or
loaded from `rankings.json`. Fields that are sometimes absent as dict keys
(`release_year` in old saved files, `play_count` in search results, `rank`
before the song is added to the store) are `Option` values. -/
structure Song where
  id : String
  name : String
  artist : String
  full_name : String
  image_url : Option String
  release_year : Option String
  play_count : Option Nat
  rank : Option Nat
deriving DecidableEq, Repr

/-- The `album` sub-dict of a raw Spotify track item: the list of image
URLs and the (possibly absent) release-date string. -/
structure RawAlbum where
  images : List String
  release_date : Option String
deriving DecidableEq, Repr

/-- A raw Spotify track item as returned by search, top-tracks or
get-track calls: id, name, artist names in order, and the album data. -/
structure RawTrack where
  id : String
  name : String
  artists : List String
  album : RawAlbum
deriving DecidableEq, Repr

/-- One item of `current_user_recently_played`: the id of the played track
and the `played_at` timestamp already parsed to epoch milliseconds. -/
structure PlayItem where
  track_id : String
  played_at : Int
deriving DecidableEq, Repr

/-- The loop of `get_next_available_rank`: starting at rank `r`, with
`fuel` candidate values left out of the range 1..2000, return the first
value whose `some`-wrapped form is not among the stored ranks; when the
fuel runs out every candidate was taken and the Python fallback 2000 is
returned. -/
def scanRank (ranks : List (Option Nat)) : Nat → Nat → Nat
  | _, 0 => 2000
  | r, fuel + 1 => if some r ∈ ranks then scanRank ranks (r + 1) fuel else r

/-- Embedding of `get_next_available_rank`: 1 for an empty store,
otherwise the scan over 1..2000 of the stored `rank` values. A pure
function of the store; it does not modify it. -/
def getNextAvailableRank (rankedSongs : List Song) : Nat :=
  if rankedSongs.isEmpty then 1
  else scanRank (rankedSongs.map Song.rank) 1 2000

/-- The cutoff `year_ago = now - (365 * 24 * 60 * 60 * 1000)` computed by
`get_spotify_suggestions`, in milliseconds. -/
def yearAgo (now : Int) : Int := now - 365 * 24 * 60 * 60 * 1000

/-- The play-counting loop of `get_spotify_suggestions`: for every
recently played item whose `played_at` is strictly greater than
`year_ago`, increment the counter for its track id. The Python dict
`play_counts` with default 0 is modelled as a total function from ids to
counts, starting from the all-zero map. -/
def playCountsLoop (now : Int) : List PlayItem → (String → Nat) → (String → Nat)
  | [], m => m
  | item :: rest, m =>
    if item.played_at > yearAgo now then
      playCountsLoop now rest
        (fun i => if i = item.track_id then m item.track_id + 1 else m i)
    else
      playCountsLoop now rest m

/-- The finished `play_counts` map of `get_spotify_suggestions`. -/
def playCounts (now : Int) (recent : List PlayItem) : String → Nat :=
  playCountsLoop now recent (fun _ => 0)

/-- Normalization of one raw track item into a song dict, as written in
the list comprehension of `search_spotify`: first artist name, first
album image URL (or `None` for an empty image list), and the first four
characters of the release-date string as `release_year`. Accessing
`artists[0]` on an empty list raises IndexError and accessing a missing
`release_date` key raises KeyError; both are modelled as `Except.error`.
There is no fallback to "N/A" here. -/
def normalizeSearchItem (t : RawTrack) : Except PyErr Song :=
  match t.artists with
  | [] => .error PyErr.idxErr
  | a :: _ =>
    match t.album.release_date with
    | none => .error PyErr.keyErr
    | some rd =>
      .ok { id := t.id, name := t.name, artist := a,
            full_name := t.name ++ " - " ++ a,
            image_url := t.album.images.head?,
            release_year := some (rd.take 4),
            play_count := none, rank := none }

/-- The suggestion-building loop of `get_spotify_suggestions`: walk the
top tracks in order, skip any track whose id is already in `seen_ids`,
normalize the rest (the same field extraction as in `search_spotify`,
plus the `play_count` entry taken from the play-count map) and append to
the accumulated suggestion list. Any raised error aborts the loop. -/
def buildSuggestions (pc : String → Nat) :
    List RawTrack → List String → List Song → Except PyErr (List Song)
  | [], _, acc => .ok acc
  | t :: ts, seen, acc =>
    if t.id ∈ seen then buildSuggestions pc ts seen acc
    else
      match normalizeSearchItem t with
      | .error e => .error e
      | .ok s =>
        buildSuggestions pc ts (t.id :: seen)
          (acc ++ [{ s with play_count := some (pc t.id) }])

/-- Embedding of `get_spotify_suggestions`. The two Spotify calls are
passed in as `Except` results; the surrounding `try/except` catches any
error of the fetches or of the loop and returns the empty list. -/
def getSpotifySuggestions (now : Int)
    (topResult : Except PyErr (List RawTrack))
    (recentResult : Except PyErr (List PlayItem)) : List Song :=
  match topResult, recentResult with
  | .ok top, .ok recent =>
    match buildSuggestions (playCounts now recent) top [] [] with
    | .ok l => l
    | .error _ => []
  | _, _ => []

/-- Embedding of `search_spotify`: an empty query short-circuits to the
empty list before any network call; otherwise the raw search result is
normalized item by item. There is no `try/except` in this function, so a
provider error, as well as a normalization error, is returned as
`Except.error` — it propagates to the caller. -/
def searchSpotify (searchResult : Except PyErr (List RawTrack)) (query : String) :
    Except PyErr (List Song) :=
  if query = "" then .ok []
  else
    match searchResult with
    | .error e => .error e
    | .ok tracks => tracks.mapM normalizeSearchItem

/-- Mathematical characterization used to state the stable-deduplication
claim: keep the first occurrence of every element, preserving order. -/
def dedupFirst : List String → List String
  | [] => []
  | x :: xs => x :: dedupFirst (xs.filter (fun y => y ≠ x))
termination_by l => l.length
decreasing_by
  simp only [List.length_cons]
  exact Nat.lt_succ_of_le (List.length_filter_le _ _)

/-- Mathematical characterization used to state the play-count claim: the
number of recently played entries carrying the given track id whose
timestamp is strictly within the 365-day window ending at `now`. -/
def countRecentPlays (now : Int) (recent : List PlayItem) (tid : String) : Nat :=
  (recent.filter (fun p => p.track_id = tid ∧ p.played_at > yearAgo now)).length

/-- Comparison by the `rank` field, the sort key `lambda x: x['rank']`
used by every re-sort in `main`. Store entries always carry the key; the
`getD 0` default only totalizes the embedding. -/
def rankLE (a b : Song) : Prop := a.rank.getD 0 ≤ b.rank.getD 0

instance : DecidableRel rankLE :=
  fun a b => inferInstanceAs (Decidable (a.rank.getD 0 ≤ b.rank.getD 0))

instance : IsTotal Song rankLE := ⟨fun x y => Nat.le_total (x.rank.getD 0) (y.rank.getD 0)⟩

instance : IsTrans Song rankLE := ⟨fun _ _ _ hab hbc => Nat.le_trans hab hbc⟩

/-- Embedding of `sorted(ranked_songs, key=lambda x: x['rank'])`: a
stable sort by the rank key. -/
def sortByRank (l : List Song) : List Song := l.insertionSort rankLE

/-- Predicate stating that a store is sorted ascending by rank. -/
def SortedByRank (l : List Song) : Prop := List.Sorted rankLE l

/-- Embedding of the Add-button handler of `main` (identical for search
results and suggestions): if the candidate dict, exactly as it stands at
the check (its `rank` key not yet assigned), is structurally equal to
some stored entry, nothing happens and nothing is written; otherwise the
rank field is set, the entry appended, the store re-sorted and saved.
The Boolean records whether `save_rankings` was called. -/
def addSong (store : List Song) (song : Song) (rank : Nat) : List Song × Bool :=
  if song ∈ store then (store, false)
  else (sortByRank (store ++ [{ song with rank := some rank }]), true)

/-- Helper for the rank-edit handler: replace the rank of the entry at
position `i`, leaving the list unchanged when `i` is out of range. -/
def setRankAt : List Song → Nat → Nat → List Song
  | [], _, _ => []
  | s :: rest, 0, r => { s with rank := some r } :: rest
  | s :: rest, i + 1, r => s :: setRankAt rest i r

/-- Embedding of the rank-edit handler of `main`: when the entered value
differs from the current rank of the entry at position `i`, mutate that
rank, re-sort the store and save; otherwise nothing happens. -/
def updateRank (store : List Song) (i : Nat) (newRank : Nat) : List Song :=
  match store[i]? with
  | none => store
  | some s =>
    if some newRank = s.rank then store
    else sortByRank (setRankAt store i newRank)

/-- Embedding of the Remove-button handler of `main`: `list.remove`
deletes the first structurally equal occurrence, then the store is
saved. -/
def removeSong (store : List Song) (song : Song) : List Song :=
  store.erase song

/-- One mutating interaction with the ranking store. -/
inductive StoreOp where
  | addOp : Song → Nat → StoreOp
  | updateOp : Nat → Nat → StoreOp
  | removeOp : Song → StoreOp

/-- Apply one store interaction. -/
def applyOp (store : List Song) : StoreOp → List Song
  | .addOp s r => (addSong store s r).1
  | .updateOp i r => updateRank store i r
  | .removeOp s => removeSong store s

/-- Apply a whole sequence of store interactions in order. -/
def applyOps (store : List Song) (ops : List StoreOp) : List Song :=
  ops.foldl applyOp store

/-- The per-entry backfill of `load_rankings`: an entry that already has
a `release_year` key is returned unchanged; one without it gets the key
set to the first four characters of the release date of the single-track
lookup, or to "N/A" when the lookup raises or the looked-up item has no
release date (the bare `except` catches both). -/
def backfillSong (lookup : String → Except PyErr RawTrack) (s : Song) : Song :=
  match s.release_year with
  | some _ => s
  | none =>
    match lookup s.id with
    | .error _ => { s with release_year := some "N/A" }
    | .ok t =>
      match t.album.release_date with
      | none => { s with release_year := some "N/A" }
      | some rd => { s with release_year := some (rd.take 4) }

/-- Embedding of `load_rankings`: `none` models a missing
`rankings.json` (empty result); otherwise every parsed entry is run
through the release-year backfill, preserving order. -/
def loadRankings (file : Option (List Song))
    (lookup : String → Except PyErr RawTrack) : List Song :=
  match file with
  | none => []
  | some entries => entries.map (backfillSong lookup)

/-- Embedding of `save_rankings`: `json.dump` serializes exactly the
in-memory array, so at the level of field-order-insensitive JSON
equivalence the written file is the list itself. -/
def saveRankings (entries : List Song) : List Song := entries

/-- Sample stored entries used to evaluate theorems at concrete inputs:
three ranked songs occupying ranks 1, 2 and 4. -/
def sampleStore : List Song :=
  [{ id := "a1", name := "Alpha", artist := "X", full_name := "Alpha - X",
     image_url := some "http", release_year := some "1999",
     play_count := none, rank := some 1 },
   { id := "b2", name := "Beta", artist := "Y", full_name := "Beta - Y",
     image_url := none, release_year := some "2004",
     play_count := none, rank := some 2 },
   { id := "c3", name := "Gamma", artist := "Z", full_name := "Gamma - Z",
     image_url := some "img", release_year := some "2011",
     play_count := none, rank := some 4 }]

/-- Sample raw track with a full album entry. -/
def rawA : RawTrack :=
  { id := "a1", name := "Alpha", artists := ["X"],
    album := { images := ["imgA"], release_date := some "1999-03-01" } }

/-- Sample raw track with an empty image list. -/
def rawB : RawTrack :=
  { id := "b2", name := "Beta", artists := ["Y", "Y2"],
    album := { images := [], release_date := some "2004" } }

/-- Sample top-tracks result containing a duplicated id. -/
def sampleTop : List RawTrack := [rawA, rawB, rawA]

/-- Sample current time in epoch milliseconds. -/
def sampleNow : Int := 1700000000000

/-- Sample recently-played result: one recent play of `a1`, one play of
`a1` far older than 365 days, and one recent play of a track that is not
among the top tracks. -/
def samplePlays : List PlayItem :=
  [{ track_id := "a1", played_at := 1690000000000 },
   { track_id := "a1", played_at := 1000000000000 },
   { track_id := "zz", played_at := 1690000000000 }]

/-- First suggestion the sample inputs produce. -/
def sampleSongA : Song :=
  { id := "a1", name := "Alpha", artist := "X", full_name := "Alpha - X",
    image_url := some "imgA", release_year := some "1999",
    play_count := some 1, rank := none }

/-- Second suggestion the sample inputs produce. -/
def sampleSongB : Song :=
  { id := "b2", name := "Beta", artist := "Y", full_name := "Beta - Y",
    image_url := none, release_year := some "2004",
    play_count := some 0, rank := none }

/-- The suggestion list the sample inputs produce. -/
def sampleOut : List Song := [sampleSongA, sampleSongB]

/-- Sample raw track whose release date is present but malformed
(empty). -/
def rawEmptyDate : RawTrack :=
  { id := "e5", name := "Eps", artists := ["W"],
    album := { images := [], release_date := some "" } }

/-- Sample raw track whose album dict has no release-date key. -/
def rawNoDate : RawTrack :=
  { id := "n6", name := "Nu", artists := ["V"],
    album := { images := ["i"], release_date := none } }

/-- The song that normalizing `rawEmptyDate` produces: its release year
is the four-character truncation of the empty date string, which is the
empty string, not "N/A". -/
def emptyDateSong : Song :=
  { id := "e5", name := "Eps", artist := "W", full_name := "Eps - W",
    image_url := none, release_year := some "", play_count := none,
    rank := none }

/-- Sample candidate song as produced by a fresh search: no `rank` key
and no `play_count` key. -/
def trackNoRank : Song :=
  { id := "t7", name := "Tau", artist := "Q", full_name := "Tau - Q",
    image_url := none, release_year := some "1988",
    play_count := none, rank := none }

/-- Store that already holds the candidate `trackNoRank` at rank 5. -/
def dupStore : List Song := [{ trackNoRank with rank := some 5 }]

/-- Sample legacy persisted entry lacking the `release_year` key. -/
def legacyEntry : Song :=
  { id := "l9", name := "Lambda", artist := "P", full_name := "Lambda - P",
    image_url := none, release_year := none, play_count := none,
    rank := some 7 }

/-- Single-track lookup that always fails with a network error. -/
def failingLookup : String → Except PyErr RawTrack :=
  fun _ => .error (PyErr.netErr "offline")

/-!
Theorems. Each claim of the specification is settled by one named
theorem below, preceded by helper lemmas where needed.
-/

theorem scanRank_all_taken (ranks : List (Option Nat)) :
    ∀ fuel r, (∀ k, r ≤ k → k < r + fuel → some k ∈ ranks) →
      scanRank ranks r fuel = 2000 := by
  intro fuel
  induction fuel with
  | zero => intro r _; rfl
  | succ n ih =>
    intro r h
    have hr : some r ∈ ranks := h r (Nat.le_refl r) (by omega)
    simp only [scanRank, if_pos hr]
    exact ih (r + 1) (fun k hk1 hk2 => h k (by omega) (by omega))

theorem scanRank_finds_least (ranks : List (Option Nat)) :
    ∀ fuel r, (∃ k, r ≤ k ∧ k < r + fuel ∧ some k ∉ ranks) →
      some (scanRank ranks r fuel) ∉ ranks ∧
      r ≤ scanRank ranks r fuel ∧
      scanRank ranks r fuel < r + fuel ∧
      ∀ j, r ≤ j → j < scanRank ranks r fuel → some j ∈ ranks := by
  intro fuel
  induction fuel with
  | zero =>
    rintro r ⟨k, hk1, hk2, _⟩
    omega
  | succ n ih =>
    rintro r ⟨k, hk1, hk2, hk3⟩
    by_cases hr : some r ∈ ranks
    · have hkr : r ≠ k := fun he => hk3 (he ▸ hr)
      have hrec := ih (r + 1) ⟨k, by omega, by omega, hk3⟩
      simp only [scanRank, if_pos hr]
      refine ⟨hrec.1, by omega, by omega, ?_⟩
      intro j hj1 hj2
      rcases Nat.eq_or_lt_of_le hj1 with he | hlt
      · exact he ▸ hr
      · exact hrec.2.2.2 j hlt (by
          have := hrec.2.2.2
          simpa only [scanRank, if_pos hr] using hj2)
    · simp only [scanRank, if_neg hr]
      exact ⟨hr, Nat.le_refl r, by omega, fun j hj1 hj2 => absurd hj1 (by omega)⟩

/-- C1: for every store state, `get_next_available_rank` returns the
smallest rank in 1..2000 that no current entry carries, and returns 2000
when all of 1..2000 are occupied. The embedding is a pure function of the
store, so the call has no side effect on it. -/
theorem getNextAvailableRank_correct (songs : List Song) :
    ((∃ k, 1 ≤ k ∧ k ≤ 2000 ∧ some k ∉ songs.map Song.rank) →
      (1 ≤ getNextAvailableRank songs ∧ getNextAvailableRank songs ≤ 2000 ∧
       some (getNextAvailableRank songs) ∉ songs.map Song.rank ∧
       ∀ j, 1 ≤ j → j < getNextAvailableRank songs → some j ∈ songs.map Song.rank)) ∧
    ((∀ k, 1 ≤ k → k ≤ 2000 → some k ∈ songs.map Song.rank) →
      getNextAvailableRank songs = 2000) := by
  by_cases hline : songs.isEmpty
  · have hnil : songs = [] := List.isEmpty_iff.mp hline
    subst hnil
    have h1 : getNextAvailableRank [] = 1 := rfl
    constructor
    · intro _
      rw [h1]
      refine ⟨Nat.le_refl 1, by omega, ?_, ?_⟩
      · simp
      · intro j hj1 hj2
        omega
    · intro h
      have := h 1 (Nat.le_refl 1) (by omega)
      simp at this
  · have hne : getNextAvailableRank songs = scanRank (songs.map Song.rank) 1 2000 := by
      simp [getNextAvailableRank, hline]
    constructor
    · rintro ⟨k, hk1, hk2, hk3⟩
      have h := scanRank_finds_least (songs.map Song.rank) 2000 1 ⟨k, hk1, by omega, hk3⟩
      rw [hne]
      exact ⟨h.2.1, by omega, h.1, h.2.2.2⟩
    · intro h
      rw [hne]
      exact scanRank_all_taken (songs.map Song.rank) 2000 1
        (fun k hk1 hk2 => h k hk1 (by omega))

/-- Witness for C1: on the sample store with ranks 1, 2 and 4 the
allocator yields a value that is at least 1, at most 2000, unused, and
below which every rank is used; evaluation shows that value is 3. -/
theorem getNextAvailableRank_correct_witness :
    (1 ≤ getNextAvailableRank sampleStore ∧ getNextAvailableRank sampleStore ≤ 2000 ∧
     some (getNextAvailableRank sampleStore) ∉ sampleStore.map Song.rank ∧
     ∀ j, 1 ≤ j → j < getNextAvailableRank sampleStore →
       some j ∈ sampleStore.map Song.rank) ∧
    getNextAvailableRank sampleStore = 3 :=
  ⟨(getNextAvailableRank_correct sampleStore).1 ⟨3, by decide, by decide, by decide⟩,
   by decide⟩

theorem normalizeSearchItem_id (t : RawTrack) (s : Song)
    (h : normalizeSearchItem t = .ok s) : s.id = t.id := by
  unfold normalizeSearchItem at h
  cases ha : t.artists with
  | nil => rw [ha] at h; exact absurd h (by simp)
  | cons a rest =>
    rw [ha] at h
    cases hd : t.album.release_date with
    | none => rw [hd] at h; exact absurd h (by simp)
    | some rd =>
      rw [hd] at h
      injection h with h
      subst h
      rfl

theorem filter_notMem_cons (x : String) (seen l : List String) :
    (l.filter (fun i => i ∉ seen)).filter (fun i => i ≠ x) =
      l.filter (fun i => i ∉ x :: seen) := by
  induction l with
  | nil => rfl
  | cons a l ih =>
    by_cases h1 : a ∈ seen
    · have hmem : a ∈ x :: seen := List.mem_cons_of_mem x h1
      simp [List.filter_cons, h1, hmem, ih]
    · by_cases h2 : a = x
      · subst h2
        simp [List.filter_cons, h1, ih]
      · have hmem : a ∉ x :: seen := by simp [List.mem_cons, h1, h2]
        simp [List.filter_cons, h1, h2, hmem, ih]

theorem buildSuggestions_ids (pc : String → Nat) :
    ∀ ts seen acc out, buildSuggestions pc ts seen acc = .ok out →
      out.map Song.id = acc.map Song.id ++
        dedupFirst ((ts.map RawTrack.id).filter (fun i => i ∉ seen)) := by
  intro ts
  induction ts with
  | nil =>
    intro seen acc out h
    injection h with h
    subst h
    simp [dedupFirst]
  | cons t ts ih =>
    intro seen acc out h
    by_cases hseen : t.id ∈ seen
    · have h2 : buildSuggestions pc ts seen acc = .ok out := by
        simpa only [buildSuggestions, if_pos hseen] using h
      rw [ih seen acc out h2]
      simp [List.filter_cons, hseen]
    · cases hn : normalizeSearchItem t with
      | error e =>
        rw [show buildSuggestions pc (t :: ts) seen acc = .error e by
          simp only [buildSuggestions, if_neg hseen, hn]] at h
        exact absurd h (by simp)
      | ok s =>
        have h2 : buildSuggestions pc ts (t.id :: seen)
            (acc ++ [{ s with play_count := some (pc t.id) }]) = .ok out := by
          simpa only [buildSuggestions, if_neg hseen, hn] using h
        rw [ih _ _ _ h2]
        have hsid : s.id = t.id := normalizeSearchItem_id t s hn
        have hded : dedupFirst (((t :: ts).map RawTrack.id).filter (fun i => i ∉ seen)) =
            t.id :: dedupFirst ((ts.map RawTrack.id).filter (fun i => i ∉ t.id :: seen)) := by
          rw [← filter_notMem_cons]
          simp [List.filter_cons, hseen, dedupFirst]
        rw [hded]
        simp [hsid]

theorem dedupFirst_sub_aux :
    ∀ n l, l.length ≤ n → ∀ x, x ∈ dedupFirst l → x ∈ l := by
  intro n
  induction n with
  | zero =>
    intro l hl x hx
    have : l = [] := List.length_eq_zero.mp (Nat.le_zero.mp hl)
    subst this
    simp [dedupFirst] at hx
  | succ n ih =>
    intro l hl x hx
    cases l with
    | nil => simp [dedupFirst] at hx
    | cons a l =>
      simp only [dedupFirst, List.mem_cons] at hx
      rcases hx with h | h
      · subst h; exact List.mem_cons_self x l
      · have hlen : (l.filter (fun y => y ≠ a)).length ≤ n := by
          have := List.length_filter_le (fun y => decide (y ≠ a)) l
          simp only [List.length_cons, Nat.succ_le_succ_iff] at hl
          omega
        exact List.mem_cons_of_mem a (List.mem_of_mem_filter (ih _ hlen x h))

theorem dedupFirst_sub (l : List String) (x : String) (h : x ∈ dedupFirst l) :
    x ∈ l :=
  dedupFirst_sub_aux l.length l (Nat.le_refl _) x h

theorem dedupFirst_nodup_aux : ∀ n l, l.length ≤ n → (dedupFirst l).Nodup := by
  intro n
  induction n with
  | zero =>
    intro l hl
    have : l = [] := List.length_eq_zero.mp (Nat.le_zero.mp hl)
    subst this
    simp [dedupFirst]
  | succ n ih =>
    intro l hl
    cases l with
    | nil => simp [dedupFirst]
    | cons a l =>
      have hlen : (l.filter (fun y => y ≠ a)).length ≤ n := by
        have := List.length_filter_le (fun y => decide (y ≠ a)) l
        simp only [List.length_cons, Nat.succ_le_succ_iff] at hl
        omega
      simp only [dedupFirst, List.nodup_cons]
      refine ⟨fun hmem => ?_, ih _ hlen⟩
      have := List.of_mem_filter (dedupFirst_sub _ a hmem)
      simp at this

theorem dedupFirst_nodup (l : List String) : (dedupFirst l).Nodup :=
  dedupFirst_nodup_aux l.length l (Nat.le_refl _)

/-- C3: for all top-tracks and recently-played inputs on which the
suggestion build succeeds, the returned sequence has pairwise distinct
ids and its ids are exactly the stable first-occurrence deduplication of
the top-tracks ids, in their original order. -/
theorem getSpotifySuggestions_stable_dedup (now : Int) (top : List RawTrack)
    (recent : List PlayItem) (out : List Song)
    (h : buildSuggestions (playCounts now recent) top [] [] = .ok out) :
    getSpotifySuggestions now (.ok top) (.ok recent) = out ∧
    ((getSpotifySuggestions now (.ok top) (.ok recent)).map Song.id).Nodup ∧
    (getSpotifySuggestions now (.ok top) (.ok recent)).map Song.id =
      dedupFirst (top.map RawTrack.id) := by
  have heq : getSpotifySuggestions now (.ok top) (.ok recent) = out := by
    simp [getSpotifySuggestions, h]
  have hid := buildSuggestions_ids (playCounts now recent) top [] [] out h
  have hfilter : (top.map RawTrack.id).filter
      (fun i => i ∉ ([] : List String)) = top.map RawTrack.id := by
    apply List.filter_eq_self.mpr
    intro a _
    simp
  rw [heq]
  rw [List.map_nil, List.nil_append, hfilter] at hid
  exact ⟨rfl, hid ▸ dedupFirst_nodup (top.map RawTrack.id), hid⟩

/-- Witness for C3: the sample inputs, whose top-tracks list repeats the
id `a1`, build successfully and yield a two-element suggestion list with
distinct ids `a1`, `b2` in first-occurrence order. -/
theorem getSpotifySuggestions_stable_dedup_witness :
    getSpotifySuggestions sampleNow (.ok sampleTop) (.ok samplePlays) = sampleOut ∧
    ((getSpotifySuggestions sampleNow (.ok sampleTop) (.ok samplePlays)).map Song.id).Nodup ∧
    (getSpotifySuggestions sampleNow (.ok sampleTop) (.ok samplePlays)).map Song.id =
      dedupFirst (sampleTop.map RawTrack.id) :=
  getSpotifySuggestions_stable_dedup sampleNow sampleTop samplePlays sampleOut rfl

theorem playCountsLoop_spec (now : Int) :
    ∀ recent m tid, playCountsLoop now recent m tid =
      m tid + countRecentPlays now recent tid := by
  intro recent
  induction recent with
  | nil =>
    intro m tid
    simp [playCountsLoop, countRecentPlays]
  | cons item rest ih =>
    intro m tid
    by_cases hq : item.played_at > yearAgo now
    · simp only [playCountsLoop, if_pos hq, ih]
      by_cases hid : tid = item.track_id
      · have hcount : countRecentPlays now (item :: rest) tid =
            countRecentPlays now rest tid + 1 := by
          have hpred : item.track_id = tid := hid.symm
          simp [countRecentPlays, List.filter_cons, hpred, hq]
        rw [hcount, if_pos hid, hid]
        omega
      · have hcount : countRecentPlays now (item :: rest) tid =
            countRecentPlays now rest tid := by
          have hpred : ¬ item.track_id = tid := fun he => hid he.symm
          simp [countRecentPlays, List.filter_cons, hpred]
        rw [hcount, if_neg hid]
    · simp only [playCountsLoop, if_neg hq, ih]
      have hcount : countRecentPlays now (item :: rest) tid =
          countRecentPlays now rest tid := by
        simp [countRecentPlays, List.filter_cons, hq]
      rw [hcount]

theorem playCounts_eq_countRecentPlays (now : Int) (recent : List PlayItem)
    (tid : String) : playCounts now recent tid = countRecentPlays now recent tid := by
  rw [playCounts, playCountsLoop_spec]
  exact Nat.zero_add _

theorem buildSuggestions_play_count (pc : String → Nat) :
    ∀ ts seen acc out, (∀ a ∈ acc, a.play_count = some (pc a.id)) →
      buildSuggestions pc ts seen acc = .ok out →
      ∀ s ∈ out, s.play_count = some (pc s.id) := by
  intro ts
  induction ts with
  | nil =>
    intro seen acc out hacc h
    injection h with h
    subst h
    exact hacc
  | cons t ts ih =>
    intro seen acc out hacc h
    by_cases hseen : t.id ∈ seen
    · exact ih seen acc out hacc
        (by simpa only [buildSuggestions, if_pos hseen] using h)
    · cases hn : normalizeSearchItem t with
      | error e =>
        rw [show buildSuggestions pc (t :: ts) seen acc = .error e by
          simp only [buildSuggestions, if_neg hseen, hn]] at h
        exact absurd h (by simp)
      | ok s =>
        have hsid : s.id = t.id := normalizeSearchItem_id t s hn
        refine ih (t.id :: seen) (acc ++ [{ s with play_count := some (pc t.id) }]) out
          ?_ (by simpa only [buildSuggestions, if_neg hseen, hn] using h)
        intro a ha
        rcases List.mem_append.mp ha with hmem | hmem
        · exact hacc a hmem
        · have : a = { s with play_count := some (pc t.id) } := by simpa using hmem
          subst this
          simp [hsid]

/-- C4: for every track in the aggregated output, `play_count` equals the
number of recently played entries of that id whose `played_at` lies in
the 365-day window before `now`, in milliseconds, where the window bound
is the strict comparison `played_at > now - 365*24*60*60*1000` exactly as
the code computes it; older entries contribute nothing and a track with
no qualifying play gets count 0 (then `countRecentPlays` is 0). -/
theorem getSpotifySuggestions_play_count (now : Int) (top : List RawTrack)
    (recent : List PlayItem) :
    ∀ s ∈ getSpotifySuggestions now (.ok top) (.ok recent),
      s.play_count = some (countRecentPlays now recent s.id) := by
  intro s hs
  cases hb : buildSuggestions (playCounts now recent) top [] [] with
  | error e =>
    have hnil : getSpotifySuggestions now (.ok top) (.ok recent) = [] := by
      simp [getSpotifySuggestions, hb]
    rw [hnil] at hs
    exact absurd hs (by simp)
  | ok l =>
    have hval : getSpotifySuggestions now (.ok top) (.ok recent) = l := by
      simp [getSpotifySuggestions, hb]
    rw [hval] at hs
    have := buildSuggestions_play_count (playCounts now recent) top [] [] l
      (by simp) hb s hs
    rw [this, playCounts_eq_countRecentPlays]

/-- Witness for C4: in the sample data the track `a1` has two recorded
plays, one inside and one outside the 365-day window, and its suggestion
carries `play_count` 1. -/
theorem getSpotifySuggestions_play_count_witness :
    sampleSongA ∈ getSpotifySuggestions sampleNow (.ok sampleTop) (.ok samplePlays) ∧
    sampleSongA.play_count = some (countRecentPlays sampleNow samplePlays sampleSongA.id) ∧
    countRecentPlays sampleNow samplePlays sampleSongA.id = 1 :=
  ⟨by decide,
   getSpotifySuggestions_play_count sampleNow sampleTop samplePlays sampleSongA (by decide),
   by decide⟩

theorem buildSuggestions_ids_from_top (pc : String → Nat) :
    ∀ ts seen acc out, buildSuggestions pc ts seen acc = .ok out →
      ∀ s ∈ out, s ∈ acc ∨ s.id ∈ ts.map RawTrack.id := by
  intro ts
  induction ts with
  | nil =>
    intro seen acc out h s hs
    injection h with h
    subst h
    exact Or.inl hs
  | cons t ts ih =>
    intro seen acc out h s hs
    by_cases hseen : t.id ∈ seen
    · rcases ih seen acc out
        (by simpa only [buildSuggestions, if_pos hseen] using h) s hs with hm | hm
      · exact Or.inl hm
      · exact Or.inr (by simp [hm])
    · cases hn : normalizeSearchItem t with
      | error e =>
        rw [show buildSuggestions pc (t :: ts) seen acc = .error e by
          simp only [buildSuggestions, if_neg hseen, hn]] at h
        exact absurd h (by simp)
      | ok sn =>
        have hsid : sn.id = t.id := normalizeSearchItem_id t sn hn
        rcases ih (t.id :: seen) (acc ++ [{ sn with play_count := some (pc t.id) }]) out
          (by simpa only [buildSuggestions, if_neg hseen, hn] using h) s hs with hm | hm
        · rcases List.mem_append.mp hm with hm2 | hm2
          · exact Or.inl hm2
          · have : s = { sn with play_count := some (pc t.id) } := by simpa using hm2
            subst this
            exact Or.inr (by simp [hsid])
        · exact Or.inr (by simp [hm])

/-- C10: every record in the aggregated suggestion output carries an id
that occurs among the top-tracks input; the recently-played input only
feeds the play-count annotations, so a track played recently but absent
from the top tracks never appears in the output. -/
theorem getSpotifySuggestions_only_from_top (now : Int) (top : List RawTrack)
    (recentResult : Except PyErr (List PlayItem)) :
    ∀ s ∈ getSpotifySuggestions now (.ok top) recentResult,
      s.id ∈ top.map RawTrack.id := by
  intro s hs
  cases recentResult with
  | error e => simp [getSpotifySuggestions] at hs
  | ok recent =>
    cases hb : buildSuggestions (playCounts now recent) top [] [] with
    | error e =>
      have hnil : getSpotifySuggestions now (.ok top) (.ok recent) = [] := by
        simp [getSpotifySuggestions, hb]
      rw [hnil] at hs
      exact absurd hs (by simp)
    | ok l =>
      have hval : getSpotifySuggestions now (.ok top) (.ok recent) = l := by
        simp [getSpotifySuggestions, hb]
      rw [hval] at hs
      rcases buildSuggestions_ids_from_top (playCounts now recent) top [] [] l hb s hs
        with hm | hm
      · exact absurd hm (by simp)
      · exact hm

/-- Witness for C10: the sample suggestion `a1` has its id among the top
tracks, while the id `zz`, played recently but absent from the top
tracks, does not occur among the output ids. -/
theorem getSpotifySuggestions_only_from_top_witness :
    (sampleSongA ∈ getSpotifySuggestions sampleNow (.ok sampleTop) (.ok samplePlays) ∧
     sampleSongA.id ∈ sampleTop.map RawTrack.id) ∧
    "zz" ∉ (getSpotifySuggestions sampleNow (.ok sampleTop) (.ok samplePlays)).map Song.id :=
  ⟨⟨by decide,
    getSpotifySuggestions_only_from_top sampleNow sampleTop (.ok samplePlays)
      sampleSongA (by decide)⟩,
   by decide⟩

/-- C5 counterexample: the normalizer has no "N/A" fallback. A raw item
whose release date is present but malformed (empty) normalizes to a
release year equal to its four-character truncation, the empty string,
not "N/A"; and a raw item with no release-date key makes the normalizer
raise a KeyError instead of producing "N/A". -/
theorem normalizer_no_na_fallback :
    normalizeSearchItem rawEmptyDate = .ok emptyDateSong ∧
    emptyDateSong.release_year ≠ some "N/A" ∧
    normalizeSearchItem rawNoDate = .error PyErr.keyErr :=
  ⟨rfl, by decide, rfl⟩

/-- C5 amended: the normalizer is a pure mapping that sets `release_year`
to the first four characters of whatever release-date string is present,
so a malformed date yields its truncation rather than "N/A", and an
absent release-date field makes it raise a KeyError (an error result in
the embedding) rather than produce "N/A"; the "N/A" substitution lives
only in the display helper and the load-time backfill. -/
theorem normalizeSearchItem_release_year (t : RawTrack) (a : String)
    (rest : List String) (ha : t.artists = a :: rest) :
    (∀ rd, t.album.release_date = some rd →
      normalizeSearchItem t = .ok
        { id := t.id, name := t.name, artist := a,
          full_name := t.name ++ " - " ++ a,
          image_url := t.album.images.head?,
          release_year := some (rd.take 4),
          play_count := none, rank := none }) ∧
    (t.album.release_date = none → normalizeSearchItem t = .error PyErr.keyErr) := by
  constructor
  · intro rd hd
    unfold normalizeSearchItem
    rw [ha, hd]
  · intro hd
    unfold normalizeSearchItem
    rw [ha, hd]

/-- Witness for the amended C5: the sample raw track with release date
"1999-03-01" normalizes to a song whose release year is the truncation
"1999". -/
theorem normalizeSearchItem_release_year_witness :
    normalizeSearchItem rawA = .ok
      { id := rawA.id, name := rawA.name, artist := "X",
        full_name := rawA.name ++ " - " ++ "X",
        image_url := rawA.album.images.head?,
        release_year := some (String.take "1999-03-01" 4),
        play_count := none, rank := none } ∧
    String.take "1999-03-01" 4 = "1999" :=
  ⟨(normalizeSearchItem_release_year rawA "X" [] rfl).1 "1999-03-01" rfl,
   by decide⟩

/-- C6 counterexample: an error raised by the search call is returned
unchanged to the caller of `search_spotify`, whose body has no handler —
the error propagates instead of degrading to an empty result. -/
theorem searchSpotify_error_propagates :
    searchSpotify (.error (PyErr.netErr "down")) "abba" =
      .error (PyErr.netErr "down") := rfl

/-- C6 amended: errors of the top-tracks and recently-played calls are
caught inside `get_spotify_suggestions` and degrade to an empty list,
and an error of the single-track lookup during load backfill degrades to
a release year of "N/A"; but an error of the search call propagates out
of `search_spotify` to its caller whenever the query is non-empty. -/
theorem catalogError_handling (now : Int) (e : PyErr)
    (topResult : Except PyErr (List RawTrack))
    (recentResult : Except PyErr (List PlayItem))
    (s : Song) (q : String) :
    getSpotifySuggestions now (.error e) recentResult = [] ∧
    getSpotifySuggestions now topResult (.error e) = [] ∧
    (s.release_year = none →
      (backfillSong (fun _ => .error e) s).release_year = some "N/A") ∧
    (q ≠ "" → searchSpotify (.error e) q = .error e) := by
  refine ⟨?_, ?_, ?_, ?_⟩
  · cases recentResult <;> rfl
  · cases topResult <;> rfl
  · intro hs
    simp [backfillSong, hs]
  · intro hq
    simp [searchSpotify, hq]

/-- Witness for the amended C6: with a concrete network error, the
suggestion fetches degrade to the empty list, the backfill of the legacy
entry degrades to "N/A", and the non-empty search query propagates the
error. -/
theorem catalogError_handling_witness :
    getSpotifySuggestions sampleNow (.error (PyErr.netErr "down")) (.ok samplePlays) = [] ∧
    getSpotifySuggestions sampleNow (.ok sampleTop) (.error (PyErr.netErr "down")) = [] ∧
    (backfillSong (fun _ => .error (PyErr.netErr "down")) legacyEntry).release_year =
      some "N/A" ∧
    searchSpotify (.error (PyErr.netErr "down")) "query" =
      .error (PyErr.netErr "down") := by
  have h := catalogError_handling sampleNow (PyErr.netErr "down")
    (.ok sampleTop) (.ok samplePlays) legacyEntry "query"
  exact ⟨h.1, h.2.1, h.2.2.1 rfl, h.2.2.2 (by decide)⟩

/-- C2 counterexample: the store already contains an entry whose track
content and rank (5) are exactly those being added, yet the add is not a
no-op: the membership check runs before the `rank` key is assigned to
the candidate, so the rank-less candidate dict matches no stored entry;
the store grows to two structurally identical entries and a save is
performed. -/
theorem addSong_duplicate_counterexample :
    { trackNoRank with rank := some 5 } ∈ dupStore ∧
    (addSong dupStore trackNoRank 5).2 = true ∧
    (addSong dupStore trackNoRank 5).1.length = 2 ∧
    (addSong dupStore trackNoRank 5).1 =
      [{ trackNoRank with rank := some 5 }, { trackNoRank with rank := some 5 }] :=
  ⟨by decide, by decide, by decide, by decide⟩

/-- C2 amended: the add handler is a no-op (store unchanged, no save)
exactly when the candidate dict, as it stands before the rank field is
assigned, is structurally equal to a stored entry; in every other case —
including a candidate whose track content plus chosen rank already occur
in the store but whose dict lacks the `rank` key — it appends the entry
with the rank set, growing the store by exactly one, leaves the store
sorted ascending by rank, and saves. -/
theorem addSong_spec (store : List Song) (song : Song) (rank : Nat) :
    (song ∈ store → addSong store song rank = (store, false)) ∧
    (song ∉ store →
      (addSong store song rank).2 = true ∧
      (addSong store song rank).1.length = store.length + 1 ∧
      SortedByRank (addSong store song rank).1 ∧
      (addSong store song rank).1.Perm
        (store ++ [{ song with rank := some rank }])) := by
  constructor
  · intro h
    simp [addSong, h]
  · intro h
    have h1 : addSong store song rank =
        (sortByRank (store ++ [{ song with rank := some rank }]), true) := by
      simp [addSong, h]
    rw [h1]
    refine ⟨rfl, ?_, ?_, ?_⟩
    · have hlen :=
        (List.perm_insertionSort rankLE
          (store ++ [{ song with rank := some rank }])).length_eq
      rw [sortByRank, hlen]
      simp
    · exact List.sorted_insertionSort rankLE _
    · exact List.perm_insertionSort rankLE _

/-- Witness for the amended C2: adding the fresh candidate to the sample
store saves, grows the store from 3 to 4 entries, and leaves it sorted. -/
theorem addSong_spec_witness :
    trackNoRank ∉ sampleStore ∧
    (addSong sampleStore trackNoRank 3).2 = true ∧
    (addSong sampleStore trackNoRank 3).1.length = sampleStore.length + 1 ∧
    SortedByRank (addSong sampleStore trackNoRank 3).1 :=
  ⟨by decide,
   ((addSong_spec sampleStore trackNoRank 3).2 (by decide)).1,
   ((addSong_spec sampleStore trackNoRank 3).2 (by decide)).2.1,
   ((addSong_spec sampleStore trackNoRank 3).2 (by decide)).2.2.1⟩

theorem applyOp_sorted (store : List Song) (op : StoreOp)
    (h : SortedByRank store) : SortedByRank (applyOp store op) := by
  cases op with
  | addOp s r =>
    by_cases hmem : s ∈ store
    · have he : applyOp store (StoreOp.addOp s r) = store := by
        simp [applyOp, addSong, hmem]
      rw [he]
      exact h
    · simp only [applyOp, addSong, if_neg hmem]
      exact List.sorted_insertionSort rankLE _
  | updateOp i r =>
    simp only [applyOp, updateRank]
    cases hGet : store[i]? with
    | none => exact h
    | some s =>
      show SortedByRank (if some r = s.rank then store else sortByRank (setRankAt store i r))
      by_cases heq : some r = s.rank
      · rw [if_pos heq]
        exact h
      · rw [if_neg heq]
        exact List.sorted_insertionSort rankLE _
  | removeOp s =>
    exact List.Pairwise.sublist (List.erase_sublist s store) h

/-- C8: starting from a store sorted ascending by rank (in particular
from the empty initial store of a fresh session), every state reached
through any sequence of add, rank-edit and remove interactions is again
sorted ascending by rank: add and rank-edit re-sort whenever they change
the store, and remove preserves sortedness. -/
theorem applyOps_sorted (init : List Song) (ops : List StoreOp)
    (h : SortedByRank init) : SortedByRank (applyOps init ops) := by
  induction ops generalizing init with
  | nil => exact h
  | cons op ops ih => exact ih (applyOp init op) (applyOp_sorted init op h)

/-- Witness for C8: from the empty store, an add, a second add and a
remove leave the store sorted. -/
theorem applyOps_sorted_witness :
    SortedByRank (applyOps []
      [StoreOp.addOp trackNoRank 2, StoreOp.addOp sampleSongA 1,
       StoreOp.removeOp { trackNoRank with rank := some 2 }]) :=
  applyOps_sorted []
    [StoreOp.addOp trackNoRank 2, StoreOp.addOp sampleSongA 1,
     StoreOp.removeOp { trackNoRank with rank := some 2 }]
    List.sorted_nil

/-- C7 counterexample: a persisted file whose single entry lacks the
`release_year` key is not reproduced by `save(load(...))`: the loaded
entry gains `release_year` "N/A" (its backfill lookup failing), so the
written array differs from the one on disk. -/
theorem saveLoad_not_identity_counterexample :
    saveRankings (loadRankings (some [legacyEntry]) failingLookup) =
      [{ legacyEntry with release_year := some "N/A" }] ∧
    saveRankings (loadRankings (some [legacyEntry]) failingLookup) ≠ [legacyEntry] :=
  ⟨by decide, by decide⟩

/-- C7 amended: for every persisted file all of whose entries already
carry the `release_year` key, saving immediately after loading writes an
array equal entry for entry (hence JSON-equivalent modulo field order)
to the one on disk; an entry without that key instead gains it through
the backfill, so such files are not reproduced verbatim. -/
theorem saveLoad_roundtrip (file : List Song)
    (lookup : String → Except PyErr RawTrack)
    (h : ∀ s ∈ file, s.release_year.isSome) :
    saveRankings (loadRankings (some file) lookup) = file := by
  unfold saveRankings loadRankings
  have hfix : ∀ s ∈ file, backfillSong lookup s = id s := by
    intro s hs
    have hsome := h s hs
    cases hy : s.release_year with
    | none => rw [hy] at hsome; simp at hsome
    | some y => simp [backfillSong, hy]
  calc file.map (backfillSong lookup) = file.map id := List.map_congr_left hfix
    _ = file := List.map_id file

/-- Witness for the amended C7: the sample store, all of whose entries
have a release year, is reproduced verbatim by save after load. -/
theorem saveLoad_roundtrip_witness :
    (∀ s ∈ sampleStore, s.release_year.isSome) ∧
    saveRankings (loadRankings (some sampleStore) failingLookup) = sampleStore :=
  ⟨by decide, saveLoad_roundtrip sampleStore failingLookup (by decide)⟩

/-- C9: loading a file that contains an entry without the `release_year`
key yields that entry with the key present — set to the first four
characters of the release date obtained by the single-track lookup, or
to "N/A" when the lookup fails or the looked-up item has no release
date — never with the key missing; and loading a missing file yields the
empty list. -/
theorem loadRankings_backfills (file : List Song)
    (lookup : String → Except PyErr RawTrack) (s : Song) :
    loadRankings none lookup = [] ∧
    (s ∈ file → s.release_year = none →
      backfillSong lookup s ∈ loadRankings (some file) lookup ∧
      (backfillSong lookup s).release_year.isSome ∧
      ((∃ t rd, lookup s.id = .ok t ∧ t.album.release_date = some rd ∧
         (backfillSong lookup s).release_year = some (rd.take 4)) ∨
       (backfillSong lookup s).release_year = some "N/A")) := by
  refine ⟨rfl, ?_⟩
  intro hmem hy
  refine ⟨List.mem_map_of_mem _ hmem, ?_, ?_⟩
  · cases hl : lookup s.id with
    | error e => simp [backfillSong, hy, hl]
    | ok t =>
      cases hd : t.album.release_date with
      | none => simp [backfillSong, hy, hl, hd]
      | some rd => simp [backfillSong, hy, hl, hd]
  · cases hl : lookup s.id with
    | error e =>
      exact Or.inr (by simp [backfillSong, hy, hl])
    | ok t =>
      cases hd : t.album.release_date with
      | none => exact Or.inr (by simp [backfillSong, hy, hl, hd])
      | some rd =>
        exact Or.inl ⟨t, rd, rfl, hd, by simp [backfillSong, hy, hl, hd]⟩

/-- Witness for C9: the legacy entry without a release year, loaded from
a one-entry file with a failing lookup, comes back with `release_year`
present and equal to "N/A"; a missing file loads to the empty list. -/
theorem loadRankings_backfills_witness :
    legacyEntry ∈ [legacyEntry] ∧
    legacyEntry.release_year = none ∧
    backfillSong failingLookup legacyEntry ∈
      loadRankings (some [legacyEntry]) failingLookup ∧
    (backfillSong failingLookup legacyEntry).release_year = some "N/A" ∧
    loadRankings none failingLookup = [] := by
  have h := loadRankings_backfills [legacyEntry] failingLookup legacyEntry
  have h2 := h.2 (by decide) rfl
  exact ⟨by decide, rfl, h2.1, by decide, h.1⟩

end Top2000
